import Mathlib

/-!
Verification of the indicator / metrics engine of `scripts/analysis.py`.

The file embeds the pandas fallback path of `compute_indicators` and the
per-symbol body of `compute_financial_metrics`:

* closes are exact rationals (the floating-point columns of the DataFrame);
* the RSI pipeline (`diff`, `clip`, `rolling(14).mean()`, the division
  `ma_up / ma_down` and the final affine formula) runs over an extended
  value type `EF` mirroring IEEE special values (`nan`, `±inf`), because the
  source relies on float division by zero producing `inf`/`nan`;
* the metrics aggregator runs over `ℝ` (it multiplies by `√252`), with
  `Option ℝ` as the explicit `NaN` marker used by the source
  (`np.nan` guards, `pandas.Series.std` returning `NaN` for a single point).
-/

namespace Analysis

/-- Extended value: a float that is `NaN`, `+inf`, `-inf` or a finite number
(modelled exactly as a rational). -/
inductive EF where
  | nan : EF
  | pinf : EF
  | ninf : EF
  | fin : ℚ → EF
deriving DecidableEq, Repr

namespace EF

/-- IEEE addition on extended values. -/
def add : EF → EF → EF
  | nan, _ => nan
  | _, nan => nan
  | pinf, ninf => nan
  | ninf, pinf => nan
  | pinf, _ => pinf
  | _, pinf => pinf
  | ninf, _ => ninf
  | _, ninf => ninf
  | fin a, fin b => fin (a + b)

/-- IEEE negation on extended values. -/
def neg : EF → EF
  | nan => nan
  | pinf => ninf
  | ninf => pinf
  | fin a => fin (-a)

/-- IEEE subtraction on extended values. -/
def sub (a b : EF) : EF := a.add b.neg

/-- IEEE division on extended values; a nonzero finite number divided by zero
gives a signed infinity, `0/0` gives `NaN` (there is no signed zero in `ℚ`,
matching the nonnegative numerators/denominators the RSI pipeline produces). -/
def div : EF → EF → EF
  | nan, _ => nan
  | _, nan => nan
  | pinf, pinf => nan
  | pinf, ninf => nan
  | ninf, pinf => nan
  | ninf, ninf => nan
  | pinf, fin b => if b < 0 then ninf else pinf
  | ninf, fin b => if b < 0 then pinf else ninf
  | fin _, pinf => fin 0
  | fin _, ninf => fin 0
  | fin a, fin b =>
      if b = 0 then (if a = 0 then nan else if 0 < a then pinf else ninf)
      else fin (a / b)

/-- `Series.clip(lower=0)` on one entry: `max · 0` on finite values,
`NaN` and `+inf` pass through, `-inf` clips to `0`. -/
def clipLower0 : EF → EF
  | nan => nan
  | pinf => pinf
  | ninf => fin 0
  | fin a => fin (max a 0)

/-- `Series.clip(upper=0)` on one entry. -/
def clipUpper0 : EF → EF
  | nan => nan
  | pinf => fin 0
  | ninf => ninf
  | fin a => fin (min a 0)

/-- Whether the entry is a finite number. -/
def isFin : EF → Bool
  | fin _ => true
  | _ => false

/-- The finite value of an entry (`0` for the special values; only used
under an `isFin` guard). -/
def toQ : EF → ℚ
  | fin a => a
  | _ => 0

end EF

/-- Tail of `Series.ewm(adjust=False).mean()`: `prev` is the previous EMA
value, each step computes `α·x + (1-α)·prev`. -/
def ewmGo (a : ℚ) (prev : ℚ) : List ℚ → List ℚ
  | [] => []
  | c :: cs => (a * c + (1 - a) * prev) :: ewmGo a (a * c + (1 - a) * prev) cs

/-- `Series.ewm(span=s, adjust=False).mean()` with `a = 2/(s+1)`: seeded at
the first value, then the standard recurrence. -/
def ewm (a : ℚ) : List ℚ → List ℚ
  | [] => []
  | c :: cs => c :: ewmGo a c cs

/-- `Series.rolling(window=w, min_periods=1).mean()` on an all-finite series:
at index `t` the mean of the trailing at-most-`w` entries (all entries so far
while fewer than `w` exist). -/
def smaList (w : ℕ) (xs : List ℚ) : List ℚ :=
  (List.range xs.length).map (fun t =>
    let win := (xs.take (t + 1)).drop (t + 1 - w)
    win.sum / (win.length : ℚ))

/-- Tail of `Series.diff()`: `p` is the previous value. -/
def diffGo (p : ℚ) : List ℚ → List EF
  | [] => []
  | y :: ys => EF.fin (y - p) :: diffGo y ys

/-- `Series.diff()`: `NaN` at index 0, `x[t] - x[t-1]` afterwards. -/
def diffEF : List ℚ → List EF
  | [] => []
  | x :: xs => EF.nan :: diffGo x xs

/-- `Series.rolling(window=w).mean()` (default `min_periods = w`): at index
`t` the window is the trailing at-most-`w` entries; the value is `NaN` unless
the window holds `w` observations and all are defined (the pipeline feeds it
only `NaN`/finite entries, never infinities). -/
def rollingMeanStrict (w : ℕ) (xs : List EF) : List EF :=
  (List.range xs.length).map (fun t =>
    let win := (xs.take (t + 1)).drop (t + 1 - w)
    if win.length = w ∧ win.all EF.isFin then
      EF.fin ((win.map EF.toQ).sum / (w : ℚ))
    else EF.nan)

/-- One row of the input DataFrame for a single symbol (`Date` as an abstract
ordinal, prices as rationals). -/
structure PriceRow where
  Date : ℕ
  Open : ℚ
  High : ℚ
  Low : ℚ
  Close : ℚ
  Volume : ℤ
deriving DecidableEq, Repr

/-- The per-symbol input DataFrame: its ordered rows. -/
structure DataFrame where
  rows : List PriceRow
deriving DecidableEq, Repr

/-- The DataFrame returned by `compute_indicators`: the original columns
(`base`, untouched by `df.copy()`), plus the five indicator columns. -/
structure IndicatorFrame where
  base : List PriceRow
  SMA_20 : List ℚ
  EMA_20 : List ℚ
  RSI_14 : List EF
  MACD : List ℚ
  MACD_signal : List ℚ
deriving DecidableEq, Repr

/-- `up = delta.clip(lower=0)` for `delta = close.diff()`. -/
def upList (close : List ℚ) : List EF := (diffEF close).map EF.clipLower0

/-- `down = -1 * delta.clip(upper=0)` for `delta = close.diff()`
(`-1 *` is IEEE negation). -/
def downList (close : List ℚ) : List EF :=
  (diffEF close).map (fun d => (d.clipUpper0).neg)

/-- `ma_up = up.rolling(14).mean()`. -/
def maUpList (close : List ℚ) : List EF := rollingMeanStrict 14 (upList close)

/-- `ma_down = down.rolling(14).mean()`. -/
def maDownList (close : List ℚ) : List EF := rollingMeanStrict 14 (downList close)

/-- `rs = ma_up / ma_down; df['RSI_14'] = 100 - (100 / (1 + rs))`
(elementwise IEEE arithmetic on the aligned series). -/
def rsiList (close : List ℚ) : List EF :=
  (List.zipWith EF.div (maUpList close) (maDownList close)).map
    (fun r => (EF.fin 100).sub ((EF.fin 100).div ((EF.fin 1).add r)))

/-- `ema12 = close.ewm(span=12, adjust=False).mean()`,
`ema26 = close.ewm(span=26, adjust=False).mean()`,
`df['MACD'] = ema12 - ema26` (elementwise, `α = 2/13` and `2/27`). -/
def macdList (close : List ℚ) : List ℚ :=
  List.zipWith (fun a b => a - b) (ewm (2/13) close) (ewm (2/27) close)

/-- `compute_indicators` (the `TALIB_AVAILABLE = False` fallback path),
line by line:
`df['SMA_20'] = close.rolling(window=20, min_periods=1).mean()`,
`df['EMA_20'] = close.ewm(span=20, adjust=False).mean()` (`α = 2/21`),
`df['RSI_14']` as in `rsiList`, `df['MACD']` as in `macdList`,
`df['MACD_signal'] = df['MACD'].ewm(span=9, adjust=False).mean()`
(`α = 2/10`). `df.copy()` keeps the original columns (`base`). -/
def compute_indicators (df : DataFrame) : IndicatorFrame :=
  let close : List ℚ := df.rows.map (fun r => r.Close)
  { base := df.rows
    SMA_20 := smaList 20 close
    EMA_20 := ewm (2/21) close
    RSI_14 := rsiList close
    MACD := macdList close
    MACD_signal := ewm (2/10) (macdList close) }

/-- Tail of `Series.pct_change().dropna()`: `p` is the previous close, each
step yields `y / p - 1`. -/
noncomputable def pctGo (p : ℝ) : List ℝ → List ℝ
  | [] => []
  | y :: ys => (y / p - 1) :: pctGo y ys

/-- `close.pct_change().dropna()`: simple daily returns
`r[t] = close[t]/close[t-1] - 1` for `t ≥ 1` (the leading `NaN` dropped).
Real division stands in for float division; it matches the source whenever
the previous close is nonzero (the price-series invariant). -/
noncomputable def pct_change_dropna : List ℝ → List ℝ
  | [] => []
  | x :: xs => pctGo x xs

/-- `Series.mean()`: sum over count. -/
noncomputable def listMean (l : List ℝ) : ℝ := l.sum / (l.length : ℝ)

/-- `Series.std()` (pandas default `ddof = 1`): the sample standard
deviation, `NaN` (here `none`) when fewer than two observations exist. -/
noncomputable def sampleStd (l : List ℝ) : Option ℝ :=
  if l.length < 2 then none
  else some (Real.sqrt ((l.map (fun x => (x - listMean l) ^ 2)).sum / ((l.length : ℝ) - 1)))

/-- One output row of `compute_financial_metrics` for a single symbol;
`none` is the `np.nan` marker of the source. -/
structure MetricsSummary where
  annualizedReturn : Option ℝ
  annualizedVolatility : Option ℝ
  sharpeApprox : Option ℝ
  observations : ℕ


/-- The per-symbol body of `compute_financial_metrics` (the group is already
sorted by date; `closes` is its `Close` column), line by line:
`returns = close.pct_change().dropna()`,
`ann_return = (1 + returns.mean()) ** 252 - 1 if not returns.empty else np.nan`,
`ann_vol = returns.std() * np.sqrt(252) if not returns.empty else np.nan`
(`returns.std()` itself is `NaN` for a single return, and `NaN * √252 = NaN`),
`sharpe = ann_return / ann_vol if ann_vol and not np.isnan(ann_vol) else np.nan`
(Python truthiness: `ann_vol` is falsy exactly when it is `0.0`; `NaN` is
truthy but excluded by `np.isnan`), `'Observations': len(group)`. -/
noncomputable def compute_financial_metrics (closes : List ℝ) : MetricsSummary :=
  let returns := pct_change_dropna closes
  let ann_return : Option ℝ :=
    if returns.isEmpty then none else some ((1 + listMean returns) ^ (252 : ℕ) - 1)
  let ann_vol : Option ℝ :=
    if returns.isEmpty then none
    else (sampleStd returns).map (fun s => s * Real.sqrt 252)
  let sharpe : Option ℝ :=
    match ann_vol with
    | none => none
    | some v => if v = 0 then none else ann_return.map (fun r => r / v)
  { annualizedReturn := ann_return
    annualizedVolatility := ann_vol
    sharpeApprox := sharpe
    observations := closes.length }

/-! ### Specification-side definitions

These restate the spec's formulas directly, to be compared with the embedded
pipeline above. -/

/-- The spec's EMA recurrence on an indexed sequence: seeded at `f 0`,
`ema[t] = α·f t + (1-α)·ema[t-1]`. -/
def emaSpec (a : ℚ) (f : ℕ → ℚ) : ℕ → ℚ
  | 0 => f 0
  | t + 1 => a * f (t + 1) + (1 - a) * emaSpec a f t

/-- The spec's daily-return sequence `r[t] = close[t]/close[t-1] - 1`,
`t = 1, …, n-1`. -/
noncomputable def specReturns (closes : List ℝ) : List ℝ :=
  (List.range (closes.length - 1)).map
    (fun t => closes.getD (t + 1) 0 / closes.getD t 0 - 1)

/-- The spec's trailing-14 simple average of up-moves at a fully-warmed row
`t ≥ 14`: the window covers the day-over-day differences into rows
`t-13, …, t` (for `i < 14` the difference into row `t - 14 + i + 1`). -/
def avgUpSpec (c : ℕ → ℚ) (t : ℕ) : ℚ :=
  (((List.range 14).map (fun i => max (c (t - 14 + i + 1) - c (t - 14 + i)) 0)).sum) / 14

/-- The spec's trailing-14 simple average of down-move magnitudes at a
fully-warmed row `t ≥ 14`. -/
def avgDownSpec (c : ℕ → ℚ) (t : ℕ) : ℚ :=
  (((List.range 14).map (fun i => max (c (t - 14 + i) - c (t - 14 + i + 1)) 0)).sum) / 14

/-- The spec's SMA(20) at a fully-warmed row `t ≥ 19`: the arithmetic mean
of the closes at indices `t-19, …, t`. -/
def smaSpecLate (c : ℕ → ℚ) (t : ℕ) : ℚ :=
  (((List.range 20).map (fun i => c (t - 19 + i))).sum) / 20

/-- The spec's SMA(20) at an early row `t < 19`: the expanding-window mean
of all closes so far (indices `0, …, t`). -/
def smaSpecEarly (c : ℕ → ℚ) (t : ℕ) : ℚ :=
  (((List.range (t + 1)).map c).sum) / (t + 1)

/-- A one-price test row (all price columns set to the close). -/
def mkRow (c : ℚ) : PriceRow := ⟨0, c, c, c, c, 0⟩

/-- A test DataFrame from a list of closes. -/
def mkDF (cs : List ℚ) : DataFrame := ⟨cs.map mkRow⟩

/-! ### Generic indexing helpers -/

theorem getD_map_of_lt {α β : Type} (f : α → β) (l : List α) (t : ℕ)
    (h : t < l.length) (d : β) (e : α) :
    (l.map f).getD t d = f (l.getD t e) := by
  rw [List.getD_eq_getElem _ _ (by simpa using h), List.getElem_map,
    List.getD_eq_getElem _ _ h]

theorem getD_zipWith_of_lt {α β γ : Type} (f : α → β → γ) (la : List α)
    (lb : List β) (t : ℕ) (ha : t < la.length) (hb : t < lb.length)
    (d : γ) (da : α) (db : β) :
    (List.zipWith f la lb).getD t d = f (la.getD t da) (lb.getD t db) := by
  rw [List.getD_eq_getElem _ _ (by simp [List.length_zipWith]; omega),
    List.getElem_zipWith, List.getD_eq_getElem _ _ ha, List.getD_eq_getElem _ _ hb]

theorem getD_range_map {β : Type} (g : ℕ → β) (n t : ℕ) (h : t < n) (d : β) :
    ((List.range n).map g).getD t d = g t := by
  rw [List.getD_eq_getElem _ _ (by simpa using h), List.getElem_map,
    List.getElem_range]

/-- The trailing window of width `w` ending at index `t`, once `t` is fully
warmed (`w ≤ t + 1`), is exactly the entries at indices `t+1-w, …, t`. -/
theorem window_eq_range_map {α : Type} (xs : List α) (w t : ℕ) (d : α)
    (hw : w ≤ t + 1) (ht : t < xs.length) :
    (xs.take (t + 1)).drop (t + 1 - w) =
      (List.range w).map (fun i => xs.getD (t + 1 - w + i) d) := by
  apply List.ext_getElem
  · simp [List.length_drop, List.length_take]
    omega
  · intro n h₁ h₂
    have hn : n < w := by simpa using h₂
    have hidx : t + 1 - w + n < xs.length := by omega
    rw [List.getElem_drop, List.getElem_take, List.getElem_map,
      List.getElem_range, List.getD_eq_getElem _ _ hidx]

/-- The expanding window at index `t < w` (`t + 1 - w = 0`) is all entries
so far. -/
theorem window_eq_range_map_early {α : Type} (xs : List α) (w t : ℕ) (d : α)
    (hw : t + 1 ≤ w) (ht : t < xs.length) :
    (xs.take (t + 1)).drop (t + 1 - w) =
      (List.range (t + 1)).map (fun i => xs.getD i d) := by
  have h0 : t + 1 - w = 0 := by omega
  rw [h0, List.drop_zero]
  apply List.ext_getElem
  · simp
    omega
  · intro n h₁ h₂
    have hn : n < t + 1 := by simpa using h₂
    have hidx : n < xs.length := by omega
    rw [List.getElem_take, List.getElem_map, List.getElem_range,
      List.getD_eq_getElem _ _ hidx]

/-! ### Length lemmas -/

theorem ewmGo_length (a p : ℚ) (xs : List ℚ) :
    (ewmGo a p xs).length = xs.length := by
  induction xs generalizing p with
  | nil => rfl
  | cons c cs ih => simp [ewmGo, ih]

theorem ewm_length (a : ℚ) (xs : List ℚ) : (ewm a xs).length = xs.length := by
  cases xs with
  | nil => rfl
  | cons c cs => simp [ewm, ewmGo_length]

theorem smaList_length (w : ℕ) (xs : List ℚ) :
    (smaList w xs).length = xs.length := by
  simp [smaList]

theorem diffGo_length (p : ℚ) (xs : List ℚ) :
    (diffGo p xs).length = xs.length := by
  induction xs generalizing p with
  | nil => rfl
  | cons y ys ih => simp [diffGo, ih]

theorem diffEF_length (xs : List ℚ) : (diffEF xs).length = xs.length := by
  cases xs with
  | nil => rfl
  | cons x xs => simp [diffEF, diffGo_length]

theorem rollingMeanStrict_length (w : ℕ) (xs : List EF) :
    (rollingMeanStrict w xs).length = xs.length := by
  simp [rollingMeanStrict]

theorem upList_length (close : List ℚ) : (upList close).length = close.length := by
  simp [upList, diffEF_length]

theorem downList_length (close : List ℚ) :
    (downList close).length = close.length := by
  simp [downList, diffEF_length]

theorem maUpList_length (close : List ℚ) :
    (maUpList close).length = close.length := by
  simp [maUpList, rollingMeanStrict_length, upList_length]

theorem maDownList_length (close : List ℚ) :
    (maDownList close).length = close.length := by
  simp [maDownList, rollingMeanStrict_length, downList_length]

theorem rsiList_length (close : List ℚ) :
    (rsiList close).length = close.length := by
  simp [rsiList, List.length_zipWith, maUpList_length, maDownList_length]

theorem macdList_length (close : List ℚ) :
    (macdList close).length = close.length := by
  simp [macdList, List.length_zipWith, ewm_length]

/-! ### The EMA recurrence -/

theorem ewmGo_getD_succ (a p : ℚ) (xs : List ℚ) (t : ℕ) (h : t + 1 < xs.length) :
    (ewmGo a p xs).getD (t + 1) 0 =
      a * xs.getD (t + 1) 0 + (1 - a) * (ewmGo a p xs).getD t 0 := by
  induction xs generalizing p t with
  | nil => simp at h
  | cons x xs ih =>
    cases t with
    | zero =>
      cases xs with
      | nil => simp at h
      | cons y ys => simp [ewmGo]
    | succ s =>
      have hs : s + 1 < xs.length := by simpa using h
      simpa [ewmGo] using ih (a * x + (1 - a) * p) s hs

theorem ewm_getD_succ (a : ℚ) (xs : List ℚ) (t : ℕ) (h : t + 1 < xs.length) :
    (ewm a xs).getD (t + 1) 0 =
      a * xs.getD (t + 1) 0 + (1 - a) * (ewm a xs).getD t 0 := by
  cases xs with
  | nil => simp at h
  | cons x xs =>
    cases t with
    | zero =>
      cases xs with
      | nil => simp at h
      | cons y ys => simp [ewm, ewmGo]
    | succ s =>
      have hs : s + 1 < xs.length := by simpa using h
      simpa [ewm] using ewmGo_getD_succ a x xs s hs

theorem ewm_getD_zero (a : ℚ) (xs : List ℚ) (h : 0 < xs.length) :
    (ewm a xs).getD 0 0 = xs.getD 0 0 := by
  cases xs with
  | nil => simp at h
  | cons x xs => simp [ewm]

/-- The list-level `ewm` agrees with the spec's seeded EMA recurrence at
every index. -/
theorem ewm_getD_eq_emaSpec (a : ℚ) (xs : List ℚ) (t : ℕ) (h : t < xs.length) :
    (ewm a xs).getD t 0 = emaSpec a (fun i => xs.getD i 0) t := by
  induction t with
  | zero => simpa [emaSpec] using ewm_getD_zero a xs h
  | succ s ih =>
    rw [ewm_getD_succ a xs s h, ih (by omega)]
    simp [emaSpec]

/-- The spec EMA only looks at indices up to `t`. -/
theorem emaSpec_congr (a : ℚ) (f g : ℕ → ℚ) (t : ℕ) (h : ∀ i ≤ t, f i = g i) :
    emaSpec a f t = emaSpec a g t := by
  induction t with
  | zero => simpa [emaSpec] using h 0 (by omega)
  | succ s ih =>
    have hs : ∀ i ≤ s, f i = g i := fun i hi => h i (by omega)
    simp [emaSpec, ih hs, h (s + 1) (by omega)]

/-- A constant series has a constant EMA. -/
theorem ewmGo_replicate (a q : ℚ) (n : ℕ) :
    ewmGo a q (List.replicate n q) = List.replicate n q := by
  induction n with
  | zero => rfl
  | succ m ih =>
    have hq : a * q + (1 - a) * q = q := by ring
    simp [List.replicate_succ, ewmGo, hq, ih]

theorem ewm_replicate (a q : ℚ) (n : ℕ) :
    ewm a (List.replicate n q) = List.replicate n q := by
  cases n with
  | zero => rfl
  | succ m => simp [List.replicate_succ, ewm, ewmGo_replicate]

/-! ### The RSI pipeline, entry by entry -/

theorem diffGo_getD_succ (p : ℚ) (xs : List ℚ) (t : ℕ) (h : t + 1 < xs.length) :
    (diffGo p xs).getD (t + 1) EF.nan =
      EF.fin (xs.getD (t + 1) 0 - xs.getD t 0) := by
  induction xs generalizing p t with
  | nil => simp at h
  | cons y ys ih =>
    cases t with
    | zero =>
      cases ys with
      | nil => simp at h
      | cons z zs => simp [diffGo]
    | succ s =>
      have hs : s + 1 < ys.length := by simpa using h
      simpa [diffGo] using ih y s hs

theorem diffEF_getD_zero (xs : List ℚ) (h : 0 < xs.length) :
    (diffEF xs).getD 0 EF.nan = EF.nan := by
  cases xs with
  | nil => simp at h
  | cons x xs => simp [diffEF]

theorem diffEF_getD_succ (xs : List ℚ) (t : ℕ) (h : t + 1 < xs.length) :
    (diffEF xs).getD (t + 1) EF.nan =
      EF.fin (xs.getD (t + 1) 0 - xs.getD t 0) := by
  cases xs with
  | nil => simp at h
  | cons x ys =>
    cases t with
    | zero =>
      cases ys with
      | nil => simp at h
      | cons z zs => simp [diffEF, diffGo]
    | succ s =>
      have hs : s + 1 < ys.length := by simpa using h
      simpa [diffEF] using diffGo_getD_succ x ys s hs

theorem upList_getD_zero (close : List ℚ) (h : 0 < close.length) :
    (upList close).getD 0 EF.nan = EF.nan := by
  rw [upList, getD_map_of_lt _ _ _ (by simpa [diffEF_length] using h) _ EF.nan,
    diffEF_getD_zero close h]
  rfl

theorem downList_getD_zero (close : List ℚ) (h : 0 < close.length) :
    (downList close).getD 0 EF.nan = EF.nan := by
  rw [downList, getD_map_of_lt _ _ _ (by simpa [diffEF_length] using h) _ EF.nan,
    diffEF_getD_zero close h]
  rfl

theorem upList_getD_succ (close : List ℚ) (t : ℕ) (h : t + 1 < close.length) :
    (upList close).getD (t + 1) EF.nan =
      EF.fin (max (close.getD (t + 1) 0 - close.getD t 0) 0) := by
  rw [upList, getD_map_of_lt _ _ _ (by simpa [diffEF_length] using h) _ EF.nan,
    diffEF_getD_succ close t h]
  rfl

theorem downList_getD_succ (close : List ℚ) (t : ℕ) (h : t + 1 < close.length) :
    (downList close).getD (t + 1) EF.nan =
      EF.fin (max (close.getD t 0 - close.getD (t + 1) 0) 0) := by
  rw [downList, getD_map_of_lt _ _ _ (by simpa [diffEF_length] using h) _ EF.nan,
    diffEF_getD_succ close t h]
  show EF.fin (-(min (close.getD (t + 1) 0 - close.getD t 0) 0)) = _
  congr 1
  rcases le_total (close.getD (t + 1) 0 - close.getD t 0) 0 with hle | hle
  · rw [min_eq_left hle, max_eq_left (by linarith)]
    ring
  · rw [min_eq_right hle, max_eq_right (by linarith)]
    ring

theorem rollingMeanStrict_getD (w : ℕ) (xs : List EF) (t : ℕ)
    (h : t < xs.length) :
    (rollingMeanStrict w xs).getD t EF.nan =
      (if ((xs.take (t + 1)).drop (t + 1 - w)).length = w ∧
          ((xs.take (t + 1)).drop (t + 1 - w)).all EF.isFin then
        EF.fin (((((xs.take (t + 1)).drop (t + 1 - w))).map EF.toQ).sum / (w : ℚ))
      else EF.nan) := by
  rw [rollingMeanStrict, getD_range_map _ _ _ h]

/-- Before the 14-observation window fills with defined differences, the
rolling mean is `NaN` (the series fed to it starts with `NaN`). -/
theorem rollingMean14_getD_cold (xs : List EF) (t : ℕ) (h14 : t < 14)
    (ht : t < xs.length) (h0 : xs.getD 0 EF.nan = EF.nan) :
    (rollingMeanStrict 14 xs).getD t EF.nan = EF.nan := by
  rw [rollingMeanStrict_getD 14 xs t ht]
  rcases Nat.lt_or_ge t 13 with hlt | hge
  · have hlen : ((xs.take (t + 1)).drop (t + 1 - 14)).length = t + 1 := by
      simp [List.length_drop, List.length_take]
      omega
    have : ¬(((xs.take (t + 1)).drop (t + 1 - 14)).length = 14 ∧
        ((xs.take (t + 1)).drop (t + 1 - 14)).all EF.isFin) := by
      rintro ⟨hl, -⟩
      rw [hlen] at hl
      omega
    simp only [ite_eq_right_iff]
    intro hc
    exact absurd hc this
  · have ht13 : t = 13 := by omega
    subst ht13
    rw [window_eq_range_map xs 14 13 EF.nan (by omega) ht]
    have hmem : EF.nan ∈ (List.range 14).map
        (fun i => xs.getD (13 + 1 - 14 + i) EF.nan) := by
      refine List.mem_map.mpr ⟨0, List.mem_range.mpr (by omega), ?_⟩
      simpa using h0
    have : ¬(((List.range 14).map
        (fun i => xs.getD (13 + 1 - 14 + i) EF.nan)).all EF.isFin = true) := by
      intro hall
      have := (List.all_eq_true.mp hall) EF.nan hmem
      simp [EF.isFin] at this
    simp only [ite_eq_right_iff]
    intro hc
    exact absurd hc.2 this

/-! ### EF computation rules -/

theorem EF.fin_add_fin (a b : ℚ) : (EF.fin a).add (EF.fin b) = EF.fin (a + b) := rfl

theorem EF.fin_sub_fin (a b : ℚ) : (EF.fin a).sub (EF.fin b) = EF.fin (a - b) := by
  show EF.fin (a + -b) = EF.fin (a - b)
  rw [← sub_eq_add_neg]

theorem EF.fin_div_fin (a b : ℚ) (hb : b ≠ 0) :
    (EF.fin a).div (EF.fin b) = EF.fin (a / b) := by
  simp [EF.div, hb]

theorem EF.fin_div_fin_zero (a : ℚ) (ha : 0 < a) :
    (EF.fin a).div (EF.fin 0) = EF.pinf := by
  simp [EF.div, ha, ne_of_gt ha]

theorem EF.zero_div_zero : (EF.fin 0).div (EF.fin 0) = EF.nan := by
  simp [EF.div]

theorem EF.fin_add_pinf (a : ℚ) : (EF.fin a).add EF.pinf = EF.pinf := rfl

theorem EF.fin_div_pinf (a : ℚ) : (EF.fin a).div EF.pinf = EF.fin 0 := rfl

theorem EF.fin_add_nan (a : ℚ) : (EF.fin a).add EF.nan = EF.nan := rfl

theorem EF.fin_div_nan (a : ℚ) : (EF.fin a).div EF.nan = EF.nan := rfl

theorem EF.fin_sub_nan (a : ℚ) : (EF.fin a).sub EF.nan = EF.nan := rfl

theorem EF.nan_div (x : EF) : EF.nan.div x = EF.nan := by cases x <;> rfl

/-! ### The rolling means at fully-warmed rows -/

theorem avgUpSpec_nonneg (c : ℕ → ℚ) (t : ℕ) : 0 ≤ avgUpSpec c t := by
  unfold avgUpSpec
  apply div_nonneg _ (by norm_num)
  apply List.sum_nonneg
  intro x hx
  obtain ⟨i, -, rfl⟩ := List.mem_map.mp hx
  exact le_max_right _ _

theorem avgDownSpec_nonneg (c : ℕ → ℚ) (t : ℕ) : 0 ≤ avgDownSpec c t := by
  unfold avgDownSpec
  apply div_nonneg _ (by norm_num)
  apply List.sum_nonneg
  intro x hx
  obtain ⟨i, -, rfl⟩ := List.mem_map.mp hx
  exact le_max_right _ _

theorem maUpList_getD_cold (close : List ℚ) (t : ℕ) (h14 : t < 14)
    (ht : t < close.length) :
    (maUpList close).getD t EF.nan = EF.nan := by
  refine rollingMean14_getD_cold _ t h14 (by simpa [upList_length] using ht) ?_
  exact upList_getD_zero close (by omega)

theorem maDownList_getD_cold (close : List ℚ) (t : ℕ) (h14 : t < 14)
    (ht : t < close.length) :
    (maDownList close).getD t EF.nan = EF.nan := by
  refine rollingMean14_getD_cold _ t h14 (by simpa [downList_length] using ht) ?_
  exact downList_getD_zero close (by omega)

theorem maUpList_getD_warm (close : List ℚ) (t : ℕ) (h14 : 14 ≤ t)
    (ht : t < close.length) :
    (maUpList close).getD t EF.nan =
      EF.fin (avgUpSpec (fun i => close.getD i 0) t) := by
  have hup : t < (upList close).length := by simpa [upList_length] using ht
  rw [maUpList, rollingMeanStrict_getD 14 _ t hup,
    window_eq_range_map (upList close) 14 t EF.nan (by omega) hup]
  have hwin : (List.range 14).map
        (fun i => (upList close).getD (t + 1 - 14 + i) EF.nan) =
      (List.range 14).map (fun i =>
        EF.fin (max (close.getD (t - 14 + i + 1) 0 - close.getD (t - 14 + i) 0) 0)) := by
    apply List.map_congr_left
    intro i hi
    have hi14 : i < 14 := List.mem_range.mp hi
    have hidx : t + 1 - 14 + i = (t - 14 + i) + 1 := by omega
    rw [hidx]
    exact upList_getD_succ close (t - 14 + i) (by omega)
  rw [hwin]
  have hguard : ((List.range 14).map (fun i =>
      EF.fin (max (close.getD (t - 14 + i + 1) 0 - close.getD (t - 14 + i) 0) 0))).length = 14 ∧
      ((List.range 14).map (fun i =>
        EF.fin (max (close.getD (t - 14 + i + 1) 0 - close.getD (t - 14 + i) 0) 0))).all
          EF.isFin = true := by
    constructor
    · simp
    · rw [List.all_eq_true]
      intro x hx
      obtain ⟨i, -, rfl⟩ := List.mem_map.mp hx
      rfl
  rw [if_pos hguard]
  unfold avgUpSpec
  rw [List.map_map]
  norm_num [Function.comp, EF.toQ]
  congr 2

theorem maDownList_getD_warm (close : List ℚ) (t : ℕ) (h14 : 14 ≤ t)
    (ht : t < close.length) :
    (maDownList close).getD t EF.nan =
      EF.fin (avgDownSpec (fun i => close.getD i 0) t) := by
  have hdn : t < (downList close).length := by simpa [downList_length] using ht
  rw [maDownList, rollingMeanStrict_getD 14 _ t hdn,
    window_eq_range_map (downList close) 14 t EF.nan (by omega) hdn]
  have hwin : (List.range 14).map
        (fun i => (downList close).getD (t + 1 - 14 + i) EF.nan) =
      (List.range 14).map (fun i =>
        EF.fin (max (close.getD (t - 14 + i) 0 - close.getD (t - 14 + i + 1) 0) 0)) := by
    apply List.map_congr_left
    intro i hi
    have hi14 : i < 14 := List.mem_range.mp hi
    have hidx : t + 1 - 14 + i = (t - 14 + i) + 1 := by omega
    rw [hidx]
    exact downList_getD_succ close (t - 14 + i) (by omega)
  rw [hwin]
  have hguard : ((List.range 14).map (fun i =>
      EF.fin (max (close.getD (t - 14 + i) 0 - close.getD (t - 14 + i + 1) 0) 0))).length = 14 ∧
      ((List.range 14).map (fun i =>
        EF.fin (max (close.getD (t - 14 + i) 0 - close.getD (t - 14 + i + 1) 0) 0))).all
          EF.isFin = true := by
    constructor
    · simp
    · rw [List.all_eq_true]
      intro x hx
      obtain ⟨i, -, rfl⟩ := List.mem_map.mp hx
      rfl
  rw [if_pos hguard]
  unfold avgDownSpec
  rw [List.map_map]
  norm_num [Function.comp, EF.toQ]
  congr 2

/-! ### The RSI column, entry by entry -/

theorem rsiList_getD (close : List ℚ) (t : ℕ) (ht : t < close.length) :
    (rsiList close).getD t EF.nan =
      (EF.fin 100).sub ((EF.fin 100).div ((EF.fin 1).add
        (EF.div ((maUpList close).getD t EF.nan)
          ((maDownList close).getD t EF.nan)))) := by
  have hz : t < (List.zipWith EF.div (maUpList close) (maDownList close)).length := by
    simp [List.length_zipWith, maUpList_length, maDownList_length]
    omega
  rw [rsiList, getD_map_of_lt _ _ _ hz _ EF.nan,
    getD_zipWith_of_lt EF.div _ _ t (by simpa [maUpList_length] using ht)
      (by simpa [maDownList_length] using ht) EF.nan EF.nan EF.nan]

/-- Warm-up: the RSI column is `NaN` on the first 14 rows. -/
theorem rsiList_getD_cold (close : List ℚ) (t : ℕ) (h14 : t < 14)
    (ht : t < close.length) :
    (rsiList close).getD t EF.nan = EF.nan := by
  rw [rsiList_getD close t ht, maUpList_getD_cold close t h14 ht,
    maDownList_getD_cold close t h14 ht]
  rfl

/-- Fully-warmed row with a nonzero down-average: the RSI value is the
textbook rational formula. -/
theorem rsiList_getD_warm (close : List ℚ) (t : ℕ) (h14 : 14 ≤ t)
    (ht : t < close.length)
    (hd : avgDownSpec (fun i => close.getD i 0) t ≠ 0) :
    (rsiList close).getD t EF.nan =
      EF.fin (100 - 100 / (1 + avgUpSpec (fun i => close.getD i 0) t /
        avgDownSpec (fun i => close.getD i 0) t)) := by
  set c := fun i => close.getD i 0 with hc
  have hu0 : 0 ≤ avgUpSpec c t := avgUpSpec_nonneg c t
  have hd0 : 0 < avgDownSpec c t :=
    lt_of_le_of_ne (avgDownSpec_nonneg c t) (Ne.symm hd)
  have hratio : 0 ≤ avgUpSpec c t / avgDownSpec c t := div_nonneg hu0 (le_of_lt hd0)
  have hden : (1 : ℚ) + avgUpSpec c t / avgDownSpec c t ≠ 0 := by linarith
  rw [rsiList_getD close t ht, maUpList_getD_warm close t h14 ht,
    maDownList_getD_warm close t h14 ht, EF.fin_div_fin _ _ hd,
    EF.fin_add_fin, EF.fin_div_fin _ _ hden, EF.fin_sub_fin]

/-- Fully-warmed row, zero down-average, nonzero up-average: the float
pipeline produces `+inf` for `rs` and the RSI resolves to exactly 100. -/
theorem rsiList_getD_warm_zero_down (close : List ℚ) (t : ℕ) (h14 : 14 ≤ t)
    (ht : t < close.length)
    (hd : avgDownSpec (fun i => close.getD i 0) t = 0)
    (hu : avgUpSpec (fun i => close.getD i 0) t ≠ 0) :
    (rsiList close).getD t EF.nan = EF.fin 100 := by
  set c := fun i => close.getD i 0 with hc
  have hu0 : 0 < avgUpSpec c t :=
    lt_of_le_of_ne (avgUpSpec_nonneg c t) (Ne.symm hu)
  rw [rsiList_getD close t ht, maUpList_getD_warm close t h14 ht,
    maDownList_getD_warm close t h14 ht, hd, EF.fin_div_fin_zero _ hu0,
    EF.fin_add_pinf, EF.fin_div_pinf, EF.fin_sub_fin]
  norm_num

/-- Fully-warmed row of a flat window (both averages zero): `rs = 0/0` is
`NaN` and the RSI stays `NaN`. -/
theorem rsiList_getD_warm_flat (close : List ℚ) (t : ℕ) (h14 : 14 ≤ t)
    (ht : t < close.length)
    (hd : avgDownSpec (fun i => close.getD i 0) t = 0)
    (hu : avgUpSpec (fun i => close.getD i 0) t = 0) :
    (rsiList close).getD t EF.nan = EF.nan := by
  rw [rsiList_getD close t ht, maUpList_getD_warm close t h14 ht,
    maDownList_getD_warm close t h14 ht, hd, hu, EF.zero_div_zero,
    EF.fin_add_nan, EF.fin_div_nan, EF.fin_sub_nan]

/-! ### The SMA column, entry by entry -/

theorem smaList_getD (w : ℕ) (xs : List ℚ) (t : ℕ) (h : t < xs.length) :
    (smaList w xs).getD t 0 =
      ((xs.take (t + 1)).drop (t + 1 - w)).sum /
        ((((xs.take (t + 1)).drop (t + 1 - w)).length : ℕ) : ℚ) := by
  rw [smaList, getD_range_map _ _ _ h]

theorem smaList_getD_late (xs : List ℚ) (t : ℕ) (h19 : 19 ≤ t)
    (ht : t < xs.length) :
    (smaList 20 xs).getD t 0 = smaSpecLate (fun i => xs.getD i 0) t := by
  rw [smaList_getD 20 xs t ht, window_eq_range_map xs 20 t 0 (by omega) ht]
  have hidx : t + 1 - 20 = t - 19 := by omega
  rw [hidx]
  unfold smaSpecLate
  norm_num

theorem smaList_getD_early (xs : List ℚ) (t : ℕ) (h19 : t < 19)
    (ht : t < xs.length) :
    (smaList 20 xs).getD t 0 = smaSpecEarly (fun i => xs.getD i 0) t := by
  rw [smaList_getD 20 xs t ht, window_eq_range_map_early xs 20 t 0 (by omega) ht]
  unfold smaSpecEarly
  norm_num

/-! ### The MACD column and its signal line -/

theorem macdList_getD (close : List ℚ) (t : ℕ) (ht : t < close.length) :
    (macdList close).getD t 0 =
      emaSpec (2/13) (fun i => close.getD i 0) t -
        emaSpec (2/27) (fun i => close.getD i 0) t := by
  rw [macdList,
    getD_zipWith_of_lt _ _ _ t (by simpa [ewm_length] using ht)
      (by simpa [ewm_length] using ht) 0 0 0,
    ewm_getD_eq_emaSpec _ _ _ ht, ewm_getD_eq_emaSpec _ _ _ ht]

theorem macd_signal_getD (close : List ℚ) (t : ℕ) (ht : t < close.length) :
    (ewm (2/10) (macdList close)).getD t 0 =
      emaSpec (2/10) (fun i =>
        emaSpec (2/13) (fun j => close.getD j 0) i -
          emaSpec (2/27) (fun j => close.getD j 0) i) t := by
  rw [ewm_getD_eq_emaSpec _ _ t (by simpa [macdList_length] using ht)]
  apply emaSpec_congr
  intro i hi
  exact macdList_getD close i (lt_of_le_of_lt hi ht)

/-! ### Daily returns -/

theorem pctGo_length (p : ℝ) (xs : List ℝ) : (pctGo p xs).length = xs.length := by
  induction xs generalizing p with
  | nil => rfl
  | cons y ys ih => simp [pctGo, ih]

theorem pct_change_dropna_length (xs : List ℝ) :
    (pct_change_dropna xs).length = xs.length - 1 := by
  cases xs with
  | nil => rfl
  | cons x xs => simp [pct_change_dropna, pctGo_length]

theorem pctGo_getD_succ (p : ℝ) (xs : List ℝ) (t : ℕ) (h : t + 1 < xs.length) :
    (pctGo p xs).getD (t + 1) 0 = xs.getD (t + 1) 0 / xs.getD t 0 - 1 := by
  induction xs generalizing p t with
  | nil => simp at h
  | cons y ys ih =>
    cases t with
    | zero =>
      cases ys with
      | nil => simp at h
      | cons z zs => simp [pctGo]
    | succ s =>
      have hs : s + 1 < ys.length := by simpa using h
      simpa [pctGo] using ih y s hs

theorem pctGo_getD_zero (p y : ℝ) (ys : List ℝ) :
    (pctGo p (y :: ys)).getD 0 0 = y / p - 1 := by
  simp [pctGo]

/-- The embedded `pct_change().dropna()` is exactly the spec's
daily-return sequence. -/
theorem pct_change_dropna_eq_specReturns (closes : List ℝ) :
    pct_change_dropna closes = specReturns closes := by
  cases closes with
  | nil => rfl
  | cons x xs =>
    apply List.ext_getElem
    · simp [pct_change_dropna, pctGo_length, specReturns]
    · intro n h₁ h₂
      have hn : n < xs.length := by
        simpa [pct_change_dropna, pctGo_length] using h₁
      rw [← List.getD_eq_getElem _ 0 h₁, ← List.getD_eq_getElem _ 0 h₂]
      have hrhs : (specReturns (x :: xs)).getD n 0 =
          (x :: xs).getD (n + 1) 0 / (x :: xs).getD n 0 - 1 := by
        unfold specReturns
        rw [getD_range_map _ _ _ (by simpa using hn)]
      rw [hrhs]
      cases n with
      | zero =>
        cases xs with
        | nil => simp at hn
        | cons z zs => simp [pct_change_dropna, pctGo]
      | succ s =>
        have hs : s + 1 < xs.length := hn
        rw [show pct_change_dropna (x :: xs) = pctGo x xs from rfl,
          pctGo_getD_succ x xs s hs]
        simp

/-! ### Constant series -/

theorem getD_replicate (q : ℚ) (n t : ℕ) (h : t < n) :
    (List.replicate n q).getD t 0 = q := by
  rw [List.getD_eq_getElem _ _ (by simpa using h), List.getElem_replicate]

theorem smaList_getD_replicate (q : ℚ) (n t : ℕ) (h : t < n) :
    (smaList 20 (List.replicate n q)).getD t 0 = q := by
  rw [smaList_getD 20 _ t (by simpa using h), List.take_replicate,
    List.drop_replicate, List.sum_replicate, List.length_replicate]
  have hkQ : (((t + 1) ⊓ n - (t + 1 - 20) : ℕ) : ℚ) ≠ 0 :=
    Nat.cast_ne_zero.mpr (by omega)
  rw [nsmul_eq_mul]
  exact mul_div_cancel_left₀ q hkQ

theorem ewm_getD_replicate (a q : ℚ) (n t : ℕ) (h : t < n) :
    (ewm a (List.replicate n q)).getD t 0 = q := by
  rw [ewm_replicate, getD_replicate q n t h]

theorem avgUpSpec_replicate (q : ℚ) (n t : ℕ) (h14 : 14 ≤ t) (ht : t < n) :
    avgUpSpec (fun i => (List.replicate n q).getD i 0) t = 0 := by
  unfold avgUpSpec
  convert zero_div (14 : ℚ) using 2
  apply List.sum_eq_zero
  intro x hx
  obtain ⟨i, hi, rfl⟩ := List.mem_map.mp hx
  have hi14 : i < 14 := List.mem_range.mp hi
  have h1 := getD_replicate q n (t - 14 + i + 1) (by omega)
  have h2 := getD_replicate q n (t - 14 + i) (by omega)
  simp only [List.getD_eq_getElem?_getD] at h1 h2
  simp [h1, h2]

theorem avgDownSpec_replicate (q : ℚ) (n t : ℕ) (h14 : 14 ≤ t) (ht : t < n) :
    avgDownSpec (fun i => (List.replicate n q).getD i 0) t = 0 := by
  unfold avgDownSpec
  convert zero_div (14 : ℚ) using 2
  apply List.sum_eq_zero
  intro x hx
  obtain ⟨i, hi, rfl⟩ := List.mem_map.mp hx
  have hi14 : i < 14 := List.mem_range.mp hi
  have h1 := getD_replicate q n (t - 14 + i + 1) (by omega)
  have h2 := getD_replicate q n (t - 14 + i) (by omega)
  simp only [List.getD_eq_getElem?_getD] at h1 h2
  simp [h1, h2]

/-! ### The metrics record, field by field -/

theorem cfm_annualizedReturn (closes : List ℝ) :
    (compute_financial_metrics closes).annualizedReturn =
      if (pct_change_dropna closes).isEmpty then none
      else some ((1 + listMean (pct_change_dropna closes)) ^ (252 : ℕ) - 1) := rfl

theorem cfm_annualizedVolatility (closes : List ℝ) :
    (compute_financial_metrics closes).annualizedVolatility =
      if (pct_change_dropna closes).isEmpty then none
      else (sampleStd (pct_change_dropna closes)).map (fun s => s * Real.sqrt 252) := rfl

theorem cfm_sharpeApprox (closes : List ℝ) :
    (compute_financial_metrics closes).sharpeApprox =
      match (compute_financial_metrics closes).annualizedVolatility with
      | none => none
      | some v =>
          if v = 0 then none
          else (compute_financial_metrics closes).annualizedReturn.map (fun r => r / v) := rfl

theorem cfm_observations (closes : List ℝ) :
    (compute_financial_metrics closes).observations = closes.length := rfl

theorem pct_change_dropna_isEmpty_iff (closes : List ℝ) :
    (pct_change_dropna closes).isEmpty = true ↔ closes.length < 2 := by
  rw [List.isEmpty_iff_length_eq_zero, pct_change_dropna_length]
  omega

/-! ### Projections of `compute_indicators` -/

theorem ci_base (df : DataFrame) : (compute_indicators df).base = df.rows := rfl

theorem ci_SMA_20 (df : DataFrame) :
    (compute_indicators df).SMA_20 = smaList 20 (df.rows.map (fun r => r.Close)) := rfl

theorem ci_EMA_20 (df : DataFrame) :
    (compute_indicators df).EMA_20 = ewm (2/21) (df.rows.map (fun r => r.Close)) := rfl

theorem ci_RSI_14 (df : DataFrame) :
    (compute_indicators df).RSI_14 = rsiList (df.rows.map (fun r => r.Close)) := rfl

theorem ci_MACD (df : DataFrame) :
    (compute_indicators df).MACD = macdList (df.rows.map (fun r => r.Close)) := rfl

theorem ci_MACD_signal (df : DataFrame) :
    (compute_indicators df).MACD_signal =
      ewm (2/10) (macdList (df.rows.map (fun r => r.Close))) := rfl

/-! ### Claims -/

/-- C1: on the fallback path, at every index the MACD column equals the
seeded EMA(12) of the closes minus the seeded EMA(26) (smoothing factors
`2/13` and `2/27`), and the MACD_signal column is the seeded EMA(9)
(`α = 2/10`) of that MACD line. -/
theorem C1_macd_is_ema_diff_and_signal (df : DataFrame) (t : ℕ)
    (ht : t < df.rows.length) :
    (compute_indicators df).MACD.getD t 0 =
      emaSpec (2/13) (fun i => (df.rows.map (fun r => r.Close)).getD i 0) t -
        emaSpec (2/27) (fun i => (df.rows.map (fun r => r.Close)).getD i 0) t ∧
    (compute_indicators df).MACD_signal.getD t 0 =
      emaSpec (2/10) (fun i =>
        emaSpec (2/13) (fun j => (df.rows.map (fun r => r.Close)).getD j 0) i -
          emaSpec (2/27) (fun j => (df.rows.map (fun r => r.Close)).getD j 0) i) t := by
  have hlen : t < (df.rows.map (fun r => r.Close)).length := by simpa using ht
  rw [ci_MACD, ci_MACD_signal]
  exact ⟨macdList_getD _ t hlen, macd_signal_getD _ t hlen⟩

theorem C1_witness :
    0 < (DataFrame.mk [PriceRow.mk 0 1 1 1 7 0]).rows.length ∧
    ((compute_indicators ⟨[⟨0, 1, 1, 1, 7, 0⟩]⟩).MACD.getD 0 0 =
      emaSpec (2/13) (fun i =>
        (((⟨[⟨0, 1, 1, 1, 7, 0⟩]⟩ : DataFrame)).rows.map (fun r => r.Close)).getD i 0) 0 -
        emaSpec (2/27) (fun i =>
          (((⟨[⟨0, 1, 1, 1, 7, 0⟩]⟩ : DataFrame)).rows.map (fun r => r.Close)).getD i 0) 0 ∧
    (compute_indicators ⟨[⟨0, 1, 1, 1, 7, 0⟩]⟩).MACD_signal.getD 0 0 =
      emaSpec (2/10) (fun i =>
        emaSpec (2/13) (fun j =>
          (((⟨[⟨0, 1, 1, 1, 7, 0⟩]⟩ : DataFrame)).rows.map (fun r => r.Close)).getD j 0) i -
          emaSpec (2/27) (fun j =>
            (((⟨[⟨0, 1, 1, 1, 7, 0⟩]⟩ : DataFrame)).rows.map (fun r => r.Close)).getD j 0) i) 0) :=
  ⟨by decide, C1_macd_is_ema_diff_and_signal ⟨[⟨0, 1, 1, 1, 7, 0⟩]⟩ 0 (by decide)⟩

/-- C3: the SMA_20 column is total (same length as the input); at a
fully-warmed row `t ≥ 19` it is the mean of the trailing 20 closes, and at
an early row `t < 19` it is the expanding-window mean of all closes so
far. -/
theorem C3_sma_expanding_then_windowed (df : DataFrame) (t : ℕ)
    (ht : t < df.rows.length) :
    (compute_indicators df).SMA_20.length = df.rows.length ∧
    (19 ≤ t → (compute_indicators df).SMA_20.getD t 0 =
      smaSpecLate (fun i => (df.rows.map (fun r => r.Close)).getD i 0) t) ∧
    (t < 19 → (compute_indicators df).SMA_20.getD t 0 =
      smaSpecEarly (fun i => (df.rows.map (fun r => r.Close)).getD i 0) t) := by
  have hlen : t < (df.rows.map (fun r => r.Close)).length := by simpa using ht
  rw [ci_SMA_20]
  refine ⟨by simp [smaList_length], ?_, ?_⟩
  · intro h19
    exact smaList_getD_late _ t h19 hlen
  · intro h19
    exact smaList_getD_early _ t h19 hlen

theorem C3_witness :
    (compute_indicators ⟨[⟨0, 1, 1, 1, 4, 0⟩, ⟨1, 1, 1, 1, 8, 0⟩]⟩).SMA_20.getD 1 0 =
      smaSpecEarly (fun i =>
        (((⟨[⟨0, 1, 1, 1, 4, 0⟩, ⟨1, 1, 1, 1, 8, 0⟩]⟩ : DataFrame)).rows.map
          (fun r => r.Close)).getD i 0) 1 :=
  (C3_sma_expanding_then_windowed ⟨[⟨0, 1, 1, 1, 4, 0⟩, ⟨1, 1, 1, 1, 8, 0⟩]⟩ 1
    (by decide)).2.2 (by decide)

/-- C4: the RSI_14 column is `NaN` on rows 0–13; at a fully-warmed row
`t ≥ 14` whose trailing-14 down-average is nonzero it equals
`100 - 100/(1 + RS)` with `RS` the ratio of the trailing-14 average
up-move to the trailing-14 average down-move magnitude. -/
theorem C4_rsi_warmup_and_formula (df : DataFrame) (t : ℕ)
    (ht : t < df.rows.length) :
    (t < 14 → (compute_indicators df).RSI_14.getD t EF.nan = EF.nan) ∧
    (14 ≤ t →
      avgDownSpec (fun i => (df.rows.map (fun r => r.Close)).getD i 0) t ≠ 0 →
      (compute_indicators df).RSI_14.getD t EF.nan =
        EF.fin (100 - 100 /
          (1 + avgUpSpec (fun i => (df.rows.map (fun r => r.Close)).getD i 0) t /
            avgDownSpec (fun i => (df.rows.map (fun r => r.Close)).getD i 0) t))) := by
  have hlen : t < (df.rows.map (fun r => r.Close)).length := by simpa using ht
  rw [ci_RSI_14]
  exact ⟨fun h14 => rsiList_getD_cold _ t h14 hlen,
    fun h14 hd => rsiList_getD_warm _ t h14 hlen hd⟩

theorem mkDF_close (cs : List ℚ) :
    (mkDF cs).rows.map (fun r => r.Close) = cs := by
  rw [mkDF, List.map_map]
  exact List.map_id cs

/-- A strictly rising window forces a zero trailing down-average. -/
theorem avgDownSpec_eq_zero_of_mono (c : ℕ → ℚ) (n t : ℕ) (h14 : 14 ≤ t)
    (ht : t < n) (hmono : ∀ i < n - 1, c i < c (i + 1)) :
    avgDownSpec c t = 0 := by
  unfold avgDownSpec
  convert zero_div (14 : ℚ) using 2
  apply List.sum_eq_zero
  intro x hx
  obtain ⟨i, hi, rfl⟩ := List.mem_map.mp hx
  have hi14 : i < 14 := List.mem_range.mp hi
  have hlt := hmono (t - 14 + i) (by omega)
  exact max_eq_right (by linarith)

/-- A strictly rising window forces a positive trailing up-average. -/
theorem avgUpSpec_ne_zero_of_mono (c : ℕ → ℚ) (n t : ℕ) (h14 : 14 ≤ t)
    (ht : t < n) (hmono : ∀ i < n - 1, c i < c (i + 1)) :
    avgUpSpec c t ≠ 0 := by
  have hsum : 0 < ((List.range 14).map
      (fun i => max (c (t - 14 + i + 1) - c (t - 14 + i)) 0)).sum := by
    apply List.sum_pos
    · intro x hx
      obtain ⟨i, hi, rfl⟩ := List.mem_map.mp hx
      have hi14 : i < 14 := List.mem_range.mp hi
      have hlt := hmono (t - 14 + i) (by omega)
      exact lt_of_lt_of_le (by linarith) (le_max_left _ _)
    · simp
  unfold avgUpSpec
  exact ne_of_gt (div_pos hsum (by norm_num))

/-- A strictly falling window forces a positive trailing down-average. -/
theorem avgDownSpec_ne_zero_of_anti (c : ℕ → ℚ) (n t : ℕ) (h14 : 14 ≤ t)
    (ht : t < n) (hanti : ∀ i < n - 1, c (i + 1) < c i) :
    avgDownSpec c t ≠ 0 := by
  have hsum : 0 < ((List.range 14).map
      (fun i => max (c (t - 14 + i) - c (t - 14 + i + 1)) 0)).sum := by
    apply List.sum_pos
    · intro x hx
      obtain ⟨i, hi, rfl⟩ := List.mem_map.mp hx
      have hi14 : i < 14 := List.mem_range.mp hi
      have hlt := hanti (t - 14 + i) (by omega)
      exact lt_of_lt_of_le (by linarith) (le_max_left _ _)
    · simp
  unfold avgDownSpec
  exact ne_of_gt (div_pos hsum (by norm_num))

set_option maxHeartbeats 1000000 in
theorem C4_witness :
    (compute_indicators
        (mkDF [16, 15, 14, 13, 12, 11, 10, 9, 8, 7, 6, 5, 4, 3, 2, 1])).RSI_14.getD
      14 EF.nan =
      EF.fin (100 - 100 /
        (1 + avgUpSpec (fun i =>
            ((mkDF [16, 15, 14, 13, 12, 11, 10, 9, 8, 7, 6, 5, 4, 3, 2, 1]).rows.map
              (fun r => r.Close)).getD i 0) 14 /
          avgDownSpec (fun i =>
            ((mkDF [16, 15, 14, 13, 12, 11, 10, 9, 8, 7, 6, 5, 4, 3, 2, 1]).rows.map
              (fun r => r.Close)).getD i 0) 14)) :=
  by
  have hd := avgDownSpec_ne_zero_of_anti
    (fun i =>
      ((mkDF [16, 15, 14, 13, 12, 11, 10, 9, 8, 7, 6, 5, 4, 3, 2, 1]).rows.map
        (fun r => r.Close)).getD i 0)
    16 14 (by omega) (by omega) (by decide)
  exact (C4_rsi_warmup_and_formula
    (mkDF [16, 15, 14, 13, 12, 11, 10, 9, 8, 7, 6, 5, 4, 3, 2, 1]) 14
    (by decide)).2 (by omega) hd

/-- C2 counterexample: on a constant 15-observation series the trailing-14
down-average at row 14 is zero, yet the RSI there is `NaN` (the pipeline's
`rs = 0/0`), not 100 — so "down-average zero implies RSI = 100" fails as
stated. -/
theorem C2_counterexample :
    avgDownSpec (fun i =>
      ((mkDF (List.replicate 15 5)).rows.map (fun r => r.Close)).getD i 0) 14 = 0 ∧
    (compute_indicators (mkDF (List.replicate 15 5))).RSI_14.getD 14 EF.nan = EF.nan ∧
    (compute_indicators (mkDF (List.replicate 15 5))).RSI_14.getD 14 EF.nan ≠
      EF.fin 100 := by
  have h2 : (compute_indicators (mkDF (List.replicate 15 5))).RSI_14.getD 14 EF.nan =
      EF.nan := by
    rw [ci_RSI_14, mkDF_close]
    exact rsiList_getD_warm_flat (List.replicate 15 5) 14 (by omega) (by simp)
      (avgDownSpec_replicate 5 15 14 (by omega) (by omega))
      (avgUpSpec_replicate 5 15 14 (by omega) (by omega))
  refine ⟨?_, h2, ?_⟩
  · rw [mkDF_close]
    exact avgDownSpec_replicate 5 15 14 (by omega) (by omega)
  · rw [h2]
    exact fun h => EF.noConfusion h

/-- C2 (amended): at a fully-warmed row whose trailing-14 down-average is
zero AND whose trailing-14 up-average is nonzero, the RSI resolves to
exactly 100; in particular this holds at every fully-warmed row of a
strictly increasing close series. -/
theorem C2_amended_rsi_resolves_to_100 (df : DataFrame) (t : ℕ)
    (h14 : 14 ≤ t) (ht : t < df.rows.length) :
    (avgDownSpec (fun i => (df.rows.map (fun r => r.Close)).getD i 0) t = 0 →
      avgUpSpec (fun i => (df.rows.map (fun r => r.Close)).getD i 0) t ≠ 0 →
      (compute_indicators df).RSI_14.getD t EF.nan = EF.fin 100) ∧
    ((∀ i < df.rows.length - 1,
        (df.rows.map (fun r => r.Close)).getD i 0 <
          (df.rows.map (fun r => r.Close)).getD (i + 1) 0) →
      (compute_indicators df).RSI_14.getD t EF.nan = EF.fin 100) := by
  have hlen : t < (df.rows.map (fun r => r.Close)).length := by simpa using ht
  rw [ci_RSI_14]
  constructor
  · intro hd hu
    exact rsiList_getD_warm_zero_down _ t h14 hlen hd hu
  · intro hmono
    exact rsiList_getD_warm_zero_down _ t h14 hlen
      (avgDownSpec_eq_zero_of_mono _ df.rows.length t h14 ht hmono)
      (avgUpSpec_ne_zero_of_mono _ df.rows.length t h14 ht hmono)

theorem C2_witness :
    (compute_indicators
        (mkDF [1, 2, 3, 4, 5, 6, 7, 8, 9, 10, 11, 12, 13, 14, 15])).RSI_14.getD
      14 EF.nan = EF.fin 100 :=
  (C2_amended_rsi_resolves_to_100
      (mkDF [1, 2, 3, 4, 5, 6, 7, 8, 9, 10, 11, 12, 13, 14, 15]) 14
      (by decide) (by decide)).2 (by decide)

/-- C8: on a constant close series of length ≥ 20, SMA_20 and EMA_20 equal
the constant at every row, and RSI_14 is `NaN` at every row (zero up- and
down-averages). -/
theorem C8_constant_series (df : DataFrame) (c : ℚ) (t : ℕ)
    (_h20 : 20 ≤ df.rows.length)
    (hconst : df.rows.map (fun r => r.Close) = List.replicate df.rows.length c)
    (ht : t < df.rows.length) :
    (compute_indicators df).SMA_20.getD t 0 = c ∧
    (compute_indicators df).EMA_20.getD t 0 = c ∧
    (compute_indicators df).RSI_14.getD t EF.nan = EF.nan := by
  rw [ci_SMA_20, ci_EMA_20, ci_RSI_14, hconst]
  refine ⟨smaList_getD_replicate c _ t ht, ewm_getD_replicate _ c _ t ht, ?_⟩
  rcases Nat.lt_or_ge t 14 with h14 | h14
  · exact rsiList_getD_cold _ t h14 (by simpa using ht)
  · exact rsiList_getD_warm_flat _ t h14 (by simpa using ht)
      (avgDownSpec_replicate c _ t h14 ht) (avgUpSpec_replicate c _ t h14 ht)

theorem C8_witness :
    (compute_indicators (mkDF (List.replicate 20 7))).SMA_20.getD 19 0 = 7 ∧
    (compute_indicators (mkDF (List.replicate 20 7))).EMA_20.getD 19 0 = 7 ∧
    (compute_indicators (mkDF (List.replicate 20 7))).RSI_14.getD 19 EF.nan = EF.nan :=
  C8_constant_series (mkDF (List.replicate 20 7)) 7 19 (by decide) (by decide) (by decide)

/-- C9: `compute_indicators` is pure and alignment-preserving: the original
rows pass through unchanged, every indicator column has the input's length,
and the output is a function of the input alone (two calls on the same
series coincide). -/
theorem C9_pure_and_aligned (df : DataFrame) :
    (compute_indicators df).base = df.rows ∧
    (compute_indicators df).SMA_20.length = df.rows.length ∧
    (compute_indicators df).EMA_20.length = df.rows.length ∧
    (compute_indicators df).RSI_14.length = df.rows.length ∧
    (compute_indicators df).MACD.length = df.rows.length ∧
    (compute_indicators df).MACD_signal.length = df.rows.length ∧
    compute_indicators df = compute_indicators df := by
  refine ⟨rfl, ?_, ?_, ?_, ?_, ?_, rfl⟩ <;>
    simp [ci_SMA_20, ci_EMA_20, ci_RSI_14, ci_MACD, ci_MACD_signal,
      smaList_length, ewm_length, rsiList_length, macdList_length]

theorem specReturns_length (closes : List ℝ) :
    (specReturns closes).length = closes.length - 1 := by
  simp [specReturns]

/-- C5: with at least two observations, the annualized return is
`(1 + mean r)^252 - 1` and the annualized volatility is `stddev(r)·√252`
(sample standard deviation), where `r` is the daily-return sequence
`r[t] = close[t]/close[t-1] - 1`. -/
theorem C5_annualized_return_and_vol (closes : List ℝ) (h2 : 2 ≤ closes.length) :
    (compute_financial_metrics closes).annualizedReturn =
      some ((1 + listMean (specReturns closes)) ^ (252 : ℕ) - 1) ∧
    (compute_financial_metrics closes).annualizedVolatility =
      (sampleStd (specReturns closes)).map (fun s => s * Real.sqrt 252) := by
  have hne : (specReturns closes).isEmpty = false := by
    rw [Bool.eq_false_iff]
    intro hemp
    rw [List.isEmpty_iff_length_eq_zero, specReturns_length] at hemp
    omega
  constructor
  · rw [cfm_annualizedReturn]
    simp [pct_change_dropna_eq_specReturns, hne]
  · rw [cfm_annualizedVolatility]
    simp [pct_change_dropna_eq_specReturns, hne]

theorem C5_witness :
    2 ≤ ([1, 2, 4] : List ℝ).length ∧
    ((compute_financial_metrics [1, 2, 4]).annualizedReturn =
      some ((1 + listMean (specReturns [1, 2, 4])) ^ (252 : ℕ) - 1) ∧
    (compute_financial_metrics [1, 2, 4]).annualizedVolatility =
      (sampleStd (specReturns [1, 2, 4])).map (fun s => s * Real.sqrt 252)) :=
  ⟨by norm_num, C5_annualized_return_and_vol [1, 2, 4] (by norm_num)⟩

/-- C6: the approximate Sharpe field equals annualized return divided by
annualized volatility exactly when the volatility is a defined positive
number; when the volatility is undefined or zero the field is undefined
(and the volatility is never negative, so these cases are exhaustive). -/
theorem C6_sharpe_guard (closes : List ℝ) :
    (∀ v, (compute_financial_metrics closes).annualizedVolatility = some v → 0 ≤ v) ∧
    (∀ v, (compute_financial_metrics closes).annualizedVolatility = some v → 0 < v →
      (compute_financial_metrics closes).sharpeApprox =
        (compute_financial_metrics closes).annualizedReturn.map (fun r => r / v)) ∧
    ((compute_financial_metrics closes).annualizedVolatility = none →
      (compute_financial_metrics closes).sharpeApprox = none) ∧
    ((compute_financial_metrics closes).annualizedVolatility = some 0 →
      (compute_financial_metrics closes).sharpeApprox = none) := by
  refine ⟨?_, ?_, ?_, ?_⟩
  · intro v hv
    rw [cfm_annualizedVolatility] at hv
    cases hemp : (pct_change_dropna closes).isEmpty with
    | true => rw [hemp] at hv; simp at hv
    | false =>
      rw [hemp] at hv
      simp only [Bool.false_eq_true, if_false, Option.map_eq_some'] at hv
      obtain ⟨s, hs, rfl⟩ := hv
      unfold sampleStd at hs
      split at hs
      · exact absurd hs (by simp)
      · obtain rfl := (Option.some.inj hs).symm
        exact mul_nonneg (Real.sqrt_nonneg _) (Real.sqrt_nonneg _)
  · intro v hv hvpos
    rw [cfm_sharpeApprox, hv]
    simp [ne_of_gt hvpos]
  · intro hv
    rw [cfm_sharpeApprox, hv]
  · intro hv
    rw [cfm_sharpeApprox, hv]
    simp

theorem C6_witness :
    (compute_financial_metrics [(1 : ℝ)]).annualizedVolatility = none ∧
    (compute_financial_metrics [(1 : ℝ)]).sharpeApprox = none :=
  ⟨rfl, (C6_sharpe_guard [(1 : ℝ)]).2.2.1 rfl⟩

/-- C7: with fewer than two observations every return-derived field is
undefined, while the observation count is the number of input rows. -/
theorem C7_insufficient_data (closes : List ℝ) (h : closes.length < 2) :
    (compute_financial_metrics closes).annualizedReturn = none ∧
    (compute_financial_metrics closes).annualizedVolatility = none ∧
    (compute_financial_metrics closes).sharpeApprox = none ∧
    (compute_financial_metrics closes).observations = closes.length := by
  have hemp : (pct_change_dropna closes).isEmpty = true :=
    (pct_change_dropna_isEmpty_iff closes).mpr h
  have hret : (compute_financial_metrics closes).annualizedReturn = none := by
    rw [cfm_annualizedReturn]
    simp [hemp]
  have hvol : (compute_financial_metrics closes).annualizedVolatility = none := by
    rw [cfm_annualizedVolatility]
    simp [hemp]
  have hsh : (compute_financial_metrics closes).sharpeApprox = none := by
    rw [cfm_sharpeApprox, hvol]
  exact ⟨hret, hvol, hsh, rfl⟩

theorem C7_witness :
    ([(5 : ℝ)] : List ℝ).length < 2 ∧
    ((compute_financial_metrics [(5 : ℝ)]).annualizedReturn = none ∧
    (compute_financial_metrics [(5 : ℝ)]).annualizedVolatility = none ∧
    (compute_financial_metrics [(5 : ℝ)]).sharpeApprox = none ∧
    (compute_financial_metrics [(5 : ℝ)]).observations = [(5 : ℝ)].length) :=
  ⟨by norm_num, C7_insufficient_data [(5 : ℝ)] (by norm_num)⟩

/-- C10: with exactly two observations the single daily return exists, so
the annualized return is defined; but the sample standard deviation
(`ddof = 1`) of one data point is undefined, so the annualized volatility
and the Sharpe field are undefined. -/
theorem C10_two_observations (closes : List ℝ) (h : closes.length = 2) :
    (∃ r, (compute_financial_metrics closes).annualizedReturn = some r) ∧
    sampleStd (pct_change_dropna closes) = none ∧
    (compute_financial_metrics closes).annualizedVolatility = none ∧
    (compute_financial_metrics closes).sharpeApprox = none := by
  have hlen : (pct_change_dropna closes).length = 1 := by
    rw [pct_change_dropna_length, h]
  have hemp : (pct_change_dropna closes).isEmpty = false := by
    rw [Bool.eq_false_iff]
    intro he
    rw [List.isEmpty_iff_length_eq_zero, hlen] at he
    omega
  have hstd : sampleStd (pct_change_dropna closes) = none := by
    unfold sampleStd
    rw [hlen]
    norm_num
  have hvol : (compute_financial_metrics closes).annualizedVolatility = none := by
    rw [cfm_annualizedVolatility]
    simp [hemp, hstd]
  have hsh : (compute_financial_metrics closes).sharpeApprox = none := by
    rw [cfm_sharpeApprox, hvol]
  refine ⟨⟨(1 + listMean (pct_change_dropna closes)) ^ (252 : ℕ) - 1, ?_⟩, hstd, hvol, hsh⟩
  rw [cfm_annualizedReturn]
  simp [hemp]

theorem C10_witness :
    ([1, 2] : List ℝ).length = 2 ∧
    ((∃ r, (compute_financial_metrics ([1, 2] : List ℝ)).annualizedReturn = some r) ∧
    sampleStd (pct_change_dropna ([1, 2] : List ℝ)) = none ∧
    (compute_financial_metrics ([1, 2] : List ℝ)).annualizedVolatility = none ∧
    (compute_financial_metrics ([1, 2] : List ℝ)).sharpeApprox = none) :=
  ⟨by norm_num, C10_two_observations [1, 2] (by norm_num)⟩

end Analysis
